import Mathlib

/-!
Shallow embedding of the WebRTC signaling relay in
`src/video_file_demo/main.py` (FastAPI `ConnectionManager` plus the
`websocket_endpoint` session loop).

The registry `self.active_connections : Dict[str, WebSocket]` is modelled
as an insertion-ordered association list `List (String × Nat)`: Python
dicts preserve insertion order, update a value in place on key overwrite,
and keep keys unique.  A `WebSocket` handle is an opaque `Nat` identifier;
sends are modelled as an output list of (handle, message) pairs.

Decoded JSON values are modelled by `JValue` (string / integer / boolean /
null — enough for the routing logic, which only inspects the `target`
field and stamps the `from` field).
-/

set_option autoImplicit false

/-- A decoded JSON value, as far as the routing code inspects it. -/
inductive JValue where
  | str (s : String)
  | num (n : Int)
  | bool (b : Bool)
  | null
deriving DecidableEq, Repr

/-- A decoded JSON object: the field list of the inbound message. -/
abbrev JObject := List (String × JValue)

/-- Python truthiness of a `JValue`, as used by `if target_id:`. -/
def truthy : JValue → Bool
  | .str s => s != ""
  | .num n => n != 0
  | .bool b => b
  | .null => false

/-- Insertion-ordered dictionary lookup: `d.get(k)` / `d[k]`.  Returns the
value of the first (and, under the dict invariant, only) entry for `k`. -/
def dictLookup {α : Type} (k : String) (d : List (String × α)) : Option α :=
  (d.find? (fun p => p.1 == k)).map Prod.snd

/-- Python `k in d`. -/
def dictContains {α : Type} (k : String) (d : List (String × α)) : Bool :=
  d.any (fun p => p.1 == k)

/-- Python `d[k] = v`: if `k` is already a key its value is updated in
place (insertion position preserved); otherwise the pair is appended. -/
def dictInsert {α : Type} (k : String) (v : α) (d : List (String × α)) :
    List (String × α) :=
  if dictContains k d then d.map (fun p => if p.1 == k then (k, v) else p)
  else d ++ [(k, v)]

/-- Python `del d[k]` under the unique-keys dict invariant: every entry
whose key is `k` is removed. -/
def dictRemove {α : Type} (k : String) (d : List (String × α)) :
    List (String × α) :=
  d.filter (fun p => !(p.1 == k))

/-- Python `list(d.keys())`. -/
def dictKeys {α : Type} (d : List (String × α)) : List String :=
  d.map Prod.fst

/-- The registry `self.active_connections`: client id to WebSocket handle. -/
abbrev Registry := List (String × Nat)

/-- A message sent out on some WebSocket handle. -/
inductive OutMsg where
  /-- The membership broadcast payload: `{"type": "users", "data": [...]}`. -/
  | users (data : List String)
  /-- A routed application message (the stamped JSON object). -/
  | app (fields : JObject)
deriving DecidableEq, Repr

namespace ConnectionManager

/-- Source `ConnectionManager.disconnect`: delete the entry if present,
silently do nothing otherwise. -/
def disconnect (reg : Registry) (client_id : String) : Registry :=
  if dictContains client_id reg then dictRemove client_id reg else reg

/-- Source `ConnectionManager.broadcast_user_list` in the case where every
`send_json` succeeds: the user list is computed fresh from the registry
and sent to every registered connection, in registry order. -/
def broadcast_user_list (reg : Registry) : List (Nat × OutMsg) :=
  reg.map (fun p => (p.2, OutMsg.users (dictKeys reg)))

/-- Source `ConnectionManager.send_personal_message`: look the recipient up
in the registry; if present send the message to that one connection, if
absent only log.  The recipient comes from the message's `target` field, so
it is an arbitrary `JValue`; the registry keys are strings, hence a
non-string recipient is never found (Python `x in dict` compares unequal). -/
def send_personal_message (reg : Registry) (message : JObject)
    (recipient : JValue) : List (Nat × OutMsg) :=
  match recipient with
  | .str t =>
      match dictLookup t reg with
      | some ws => [(ws, OutMsg.app message)]
      | none => []
  | _ => []

/-- Source `ConnectionManager.connect` (accept, register, broadcast):
returns the new registry and the sends of the membership broadcast. -/
def connect (reg : Registry) (client_id : String) (websocket : Nat) :
    Registry × List (Nat × OutMsg) :=
  let reg' := dictInsert client_id websocket reg
  (reg', broadcast_user_list reg')

end ConnectionManager

/-- The send loop of `broadcast_user_list` when `send_json` may raise:
`fails h` says the send on handle `h` raises.  Sends are sequential; the
first failing send aborts the loop, so the result is the list of messages
actually delivered together with `true` iff no send raised.  The registry
is not touched (the function has no registry result at all): a failing
recipient is not disconnected by the broadcast. -/
def for_each_send (fails : Nat → Bool) (message : OutMsg) :
    List (String × Nat) → List (Nat × OutMsg) × Bool
  | [] => ([], true)
  | (_, h) :: rest =>
      if fails h then ([], false)
      else
        let r := for_each_send fails message rest
        ((h, message) :: r.1, r.2)

/-- One body of the `while True` loop of `websocket_endpoint` on a
successfully decoded message: extract `target`, and if it is truthy,
stamp `message["from"] = client_id` and forward, else only warn. -/
def handle_message (reg : Registry) (client_id : String) (message : JObject) :
    List (Nat × OutMsg) :=
  let target_id := (dictLookup "target" message).getD JValue.null
  if truthy target_id then
    ConnectionManager.send_personal_message reg
      (dictInsert "from" (JValue.str client_id) message) target_id
  else []

/-- Outcome of one iteration of the session loop: either the loop goes on
(`continued`), or an exception was caught, the `except` branch ran and the
loop is over (`ended`).  Both carry the registry afterwards and the
messages sent during the iteration. -/
inductive StepResult where
  | continued (reg : Registry) (sent : List (Nat × OutMsg))
  | ended (reg : Registry) (sent : List (Nat × OutMsg))
deriving DecidableEq, Repr

/-- The registry after the step. -/
def StepResult.reg : StepResult → Registry
  | .continued r _ => r
  | .ended r _ => r

/-- The messages sent during the step. -/
def StepResult.sent : StepResult → List (Nat × OutMsg)
  | .continued _ s => s
  | .ended _ s => s

/-- Whether the session loop keeps running after the step. -/
def StepResult.isContinued : StepResult → Bool
  | .continued _ _ => true
  | .ended _ _ => false

/-- The `except` branches of `websocket_endpoint` (both `WebSocketDisconnect`
and the generic `except Exception`): `manager.disconnect(client_id)` then
`await manager.broadcast_user_list()`, after which the handler returns. -/
def disconnect_and_broadcast (reg : Registry) (client_id : String) :
    Registry × List (Nat × OutMsg) :=
  let reg' := ConnectionManager.disconnect reg client_id
  (reg', ConnectionManager.broadcast_user_list reg')

/-- One iteration of `websocket_endpoint`'s receive loop.  `raw = some msg`
means `receive_text` returned text that `json.loads` decoded to the object
`msg`; the loop body routes it and the loop continues.  `raw = none` means
`json.loads` raised (malformed text): the exception escapes the `while` to
the `except Exception` handler, which disconnects the client, broadcasts
the updated user list, and the loop is over. -/
def sessionStep (reg : Registry) (client_id : String) (raw : Option JObject) :
    StepResult :=
  match raw with
  | some message => .continued reg (handle_message reg client_id message)
  | none =>
      let r := disconnect_and_broadcast reg client_id
      .ended r.1 r.2

/-! Lemmas about the dictionary model. -/

theorem dictLookup_eq_none_iff {α : Type} {k : String} {d : List (String × α)} :
    dictLookup k d = none ↔ dictContains k d = false := by
  induction d with
  | nil => simp [dictLookup, dictContains]
  | cons p t ih =>
      by_cases hpk : (p.1 == k) = true
      · simp [dictLookup, dictContains, List.find?, hpk]
      · simp only [Bool.not_eq_true] at hpk
        simp only [dictLookup, dictContains, List.find?, hpk, List.any_cons,
          Bool.false_or] at ih ⊢
        exact ih

theorem dictContains_iff_mem_dictKeys {α : Type} {k : String}
    {d : List (String × α)} :
    dictContains k d = true ↔ k ∈ dictKeys d := by
  simp only [dictContains, dictKeys, List.any_eq_true, List.mem_map,
    beq_iff_eq]

theorem dictKeys_dictInsert_of_contains {α : Type} {k : String} {v : α}
    {d : List (String × α)} (h : dictContains k d = true) :
    dictKeys (dictInsert k v d) = dictKeys d := by
  simp only [dictInsert, h, if_true, dictKeys, List.map_map]
  apply List.map_congr_left
  intro p _
  by_cases hpk : (p.1 == k) = true
  · simp only [Function.comp_apply, hpk, if_true]
    exact (beq_iff_eq.mp hpk).symm
  · simp only [Bool.not_eq_true] at hpk
    simp [Function.comp, hpk]

theorem dictKeys_dictInsert_of_not_contains {α : Type} {k : String} {v : α}
    {d : List (String × α)} (h : dictContains k d = false) :
    dictKeys (dictInsert k v d) = dictKeys d ++ [k] := by
  simp [dictInsert, h, dictKeys]

theorem dictKeys_nodup_dictInsert {α : Type} {k : String} {v : α}
    {d : List (String × α)} (h : (dictKeys d).Nodup) :
    (dictKeys (dictInsert k v d)).Nodup := by
  by_cases hc : dictContains k d = true
  · rw [dictKeys_dictInsert_of_contains hc]; exact h
  · simp only [Bool.not_eq_true] at hc
    rw [dictKeys_dictInsert_of_not_contains hc]
    have hk : k ∉ dictKeys d := fun hm =>
      by simp [dictContains_iff_mem_dictKeys.mpr hm] at hc
    simp [List.nodup_append, h, hk]

theorem dictLookup_dictInsert_self {α : Type} (k : String) (v : α)
    (d : List (String × α)) :
    dictLookup k (dictInsert k v d) = some v := by
  by_cases hc : dictContains k d = true
  · simp only [dictInsert, hc, if_true]
    induction d with
    | nil => simp [dictContains] at hc
    | cons p t ih =>
        by_cases hpk : (p.1 == k) = true
        · simp [dictLookup, List.find?, hpk]
        · simp only [Bool.not_eq_true] at hpk
          have ht : dictContains k t = true := by
            simpa [dictContains, hpk] using hc
          simpa [dictLookup, List.find?, hpk] using ih ht
  · simp only [Bool.not_eq_true] at hc
    simp only [dictInsert, hc, Bool.false_eq_true, if_false]
    induction d with
    | nil => simp [dictLookup, List.find?]
    | cons p t ih =>
        have hc' : ((p.1 == k) || dictContains k t) = false := by
          simpa [dictContains, List.any_cons] using hc
        rcases Bool.or_eq_false_iff.mp hc' with ⟨hpk, ht⟩
        simpa [dictLookup, List.find?, hpk] using ih ht

theorem dictKeys_dictRemove {α : Type} (k : String) (d : List (String × α)) :
    dictKeys (dictRemove k d) = (dictKeys d).filter (fun s => !(s == k)) := by
  simp only [dictKeys, dictRemove, List.filter_map]
  rfl

theorem not_mem_dictKeys_dictRemove {α : Type} (k : String)
    (d : List (String × α)) : k ∉ dictKeys (dictRemove k d) := by
  rw [dictKeys_dictRemove]
  intro hm
  have := (List.mem_filter.mp hm).2
  simp at this

theorem dictLookup_dictRemove_self {α : Type} (k : String)
    (d : List (String × α)) : dictLookup k (dictRemove k d) = none := by
  rw [dictLookup_eq_none_iff]
  by_contra h
  simp only [Bool.not_eq_false] at h
  exact not_mem_dictKeys_dictRemove k d (dictContains_iff_mem_dictKeys.mp h)

theorem dictLookup_dictRemove_other {α : Type} {k k' : String}
    (h : k' ≠ k) (d : List (String × α)) :
    dictLookup k' (dictRemove k d) = dictLookup k' d := by
  induction d with
  | nil => rfl
  | cons p t ih =>
      by_cases hpk : (p.1 == k) = true
      · have hpk' : (p.1 == k') = false := by
          have hp : p.1 = k := beq_iff_eq.mp hpk
          rw [hp]
          exact beq_eq_false_iff_ne.mpr fun e => h e.symm
        simp only [dictRemove, List.filter_cons, hpk, Bool.not_true] at ih ⊢
        simp only [dictLookup, List.find?, hpk'] at ih ⊢
        exact ih
      · simp only [Bool.not_eq_true] at hpk
        by_cases hpk' : (p.1 == k') = true
        · simp [dictRemove, dictLookup, List.filter_cons, List.find?, hpk,
            hpk']
        · simp only [Bool.not_eq_true] at hpk'
          simp only [dictRemove, List.filter_cons, hpk, Bool.not_false] at ih ⊢
          simp only [dictLookup, List.find?, hpk'] at ih ⊢
          exact ih

/-! Lemmas about `disconnect` and `broadcast_user_list`. -/

theorem dictLookup_disconnect_self (reg : Registry) (cid : String) :
    dictLookup cid (ConnectionManager.disconnect reg cid) = none := by
  unfold ConnectionManager.disconnect
  by_cases hc : dictContains cid reg = true
  · simp only [hc, if_true]
    exact dictLookup_dictRemove_self cid reg
  · simp only [Bool.not_eq_true] at hc
    simp only [hc, Bool.false_eq_true, if_false]
    exact dictLookup_eq_none_iff.mpr hc

theorem dictLookup_disconnect_other {k cid : String} (h : k ≠ cid)
    (reg : Registry) :
    dictLookup k (ConnectionManager.disconnect reg cid) = dictLookup k reg := by
  unfold ConnectionManager.disconnect
  by_cases hc : dictContains cid reg = true
  · simp only [hc, if_true]
    exact dictLookup_dictRemove_other h reg
  · simp [hc]

theorem not_mem_dictKeys_disconnect (reg : Registry) (cid : String) :
    cid ∉ dictKeys (ConnectionManager.disconnect reg cid) := by
  intro hm
  have hc : dictContains cid (ConnectionManager.disconnect reg cid) = true :=
    dictContains_iff_mem_dictKeys.mpr hm
  have := dictLookup_disconnect_self reg cid
  rw [dictLookup_eq_none_iff] at this
  rw [this] at hc
  exact Bool.false_ne_true hc

theorem dictKeys_nodup_disconnect {reg : Registry} (cid : String)
    (h : (dictKeys reg).Nodup) :
    (dictKeys (ConnectionManager.disconnect reg cid)).Nodup := by
  unfold ConnectionManager.disconnect
  by_cases hc : dictContains cid reg = true
  · simp only [hc, if_true, dictKeys_dictRemove]
    exact h.filter _
  · simp [hc, h]

theorem broadcast_user_list_snd (reg : Registry) :
    (ConnectionManager.broadcast_user_list reg).map Prod.snd =
      List.replicate reg.length (OutMsg.users (dictKeys reg)) := by
  simp only [ConnectionManager.broadcast_user_list, List.map_map]
  exact List.map_const' reg (OutMsg.users (dictKeys reg))

theorem mem_broadcast_user_list {reg : Registry} {p : Nat × OutMsg}
    (h : p ∈ ConnectionManager.broadcast_user_list reg) :
    p.2 = OutMsg.users (dictKeys reg) := by
  simp only [ConnectionManager.broadcast_user_list, List.mem_map] at h
  rcases h with ⟨q, _, rfl⟩
  rfl

/-! Claim theorems. -/

/-- C1 (counterexample): with registry `[A ↦ 0, B ↦ 1]`, a malformed inbound
message on A's session (`raw = none`: `json.loads` raised) does NOT leave the
loop running with A registered — the generic `except Exception` handler runs:
A is unregistered, a membership broadcast without A goes out, and the loop
ends.  This refutes the claim that only a transport-level disconnect ends the
loop and that the client stays registered after a decode error. -/
theorem decode_error_terminates_cex :
    sessionStep [("A", 0), ("B", 1)] "A" none =
      StepResult.ended [("B", 1)] [(1, OutMsg.users ["B"])] ∧
    (sessionStep [("A", 0), ("B", 1)] "A" none).isContinued = false ∧
    "A" ∉ dictKeys (sessionStep [("A", 0), ("B", 1)] "A" none).reg := by
  refine ⟨by decide, by decide, by decide⟩

/-- C1 (amended): a malformed inbound message (JSON decode failure) raises out
of the receive loop into the generic exception handler: the session loop
terminates, the client is unregistered (its ID resolves to nothing in the
resulting registry, which is exactly `disconnect reg cid`), and the updated
user list is broadcast once to every remaining connection. -/
theorem decode_error_disconnects (reg : Registry) (cid : String) :
    (sessionStep reg cid none).isContinued = false ∧
    (sessionStep reg cid none).reg = ConnectionManager.disconnect reg cid ∧
    dictLookup cid (sessionStep reg cid none).reg = none ∧
    ((sessionStep reg cid none).sent).map Prod.snd =
      List.replicate (sessionStep reg cid none).reg.length
        (OutMsg.users (dictKeys (sessionStep reg cid none).reg)) := by
  refine ⟨rfl, rfl, ?_, ?_⟩
  · exact dictLookup_disconnect_self reg cid
  · exact broadcast_user_list_snd (ConnectionManager.disconnect reg cid)

/-- C2 (counterexample): registry `[A ↦ 0, B ↦ 1]`, where the send to handle
0 raises.  The broadcast delivers nothing at all — in particular nothing to
B, the remaining registered connection — and reports failure (the exception
propagates to the caller); no disconnect of A is performed (`for_each_send`
does not touch the registry at all, as its type shows).  This refutes the
claim that a failed send is isolated and triggers the failing recipient's
disconnect path. -/
theorem broadcast_send_failure_cex :
    for_each_send (fun h => h == 0) (OutMsg.users ["A", "B"])
      [("A", 0), ("B", 1)] = ([], false) ∧
    (1, OutMsg.users ["A", "B"]) ∉
      (for_each_send (fun h => h == 0) (OutMsg.users ["A", "B"])
        [("A", 0), ("B", 1)]).1 := by
  refine ⟨by decide, by decide⟩

/-- C2 (amended): the broadcast send loop is sequential with no per-recipient
error isolation: if every send before position `i` succeeds and the send at
position `i` raises, then exactly the recipients before `i` receive the
message, every recipient after `i` receives nothing, the loop aborts with the
exception propagating to the caller (`false` flag), and the registry is
untouched (no disconnect of the failing recipient). -/
theorem for_each_send_aborts_at_failure (fails : Nat → Bool) (m : OutMsg)
    (pre post : List (String × Nat)) (c : String) (h : Nat)
    (hpre : (for_each_send fails m pre).2 = true) (hf : fails h = true) :
    for_each_send fails m (pre ++ (c, h) :: post) =
      ((for_each_send fails m pre).1, false) := by
  induction pre with
  | nil => simp [for_each_send, hf]
  | cons q t ih =>
      rcases q with ⟨qc, qh⟩
      by_cases hq : fails qh = true
      · simp [for_each_send, hq] at hpre
      · simp only [Bool.not_eq_true] at hq
        have hpre' : (for_each_send fails m t).2 = true := by
          simpa [for_each_send, hq] using hpre
        simp [for_each_send, hq, ih hpre']

/-- C2 (witness): instance of `for_each_send_aborts_at_failure` with one
succeeding recipient before the failing one and one after. -/
theorem for_each_send_aborts_witness :
    (for_each_send (fun h => h == 0) (OutMsg.users ["A"]) [("A", 5)]).2 =
      true ∧
    for_each_send (fun h => h == 0) (OutMsg.users ["A"])
        ([("A", 5)] ++ ("C", 0) :: [("D", 7)]) =
      ((for_each_send (fun h => h == 0) (OutMsg.users ["A"]) [("A", 5)]).1,
        false) :=
  ⟨by decide,
   for_each_send_aborts_at_failure (fun h => h == 0) (OutMsg.users ["A"])
     [("A", 5)] [("D", 7)] "C" 0 (by decide) (by decide)⟩

/-- C3: the disconnect path of the session loop (`disconnect` then
`broadcast_user_list`) removes the client before the broadcast is computed:
the departed client's ID is absent from the resulting registry, every
remaining connection receives exactly one `users` message, and the `data`
list of each such message is exactly the key list of the post-removal
registry (so it is never a pre-removal snapshot and never contains the
departed client). -/
theorem disconnect_then_single_broadcast (reg : Registry) (cid : String) :
    cid ∉ dictKeys (disconnect_and_broadcast reg cid).1 ∧
    ((disconnect_and_broadcast reg cid).2).map Prod.snd =
      List.replicate (disconnect_and_broadcast reg cid).1.length
        (OutMsg.users (dictKeys (disconnect_and_broadcast reg cid).1)) ∧
    ∀ p ∈ (disconnect_and_broadcast reg cid).2,
      p.2 = OutMsg.users (dictKeys (disconnect_and_broadcast reg cid).1) ∧
      cid ∉ dictKeys (disconnect_and_broadcast reg cid).1 := by
  refine ⟨not_mem_dictKeys_disconnect reg cid, ?_, ?_⟩
  · exact broadcast_user_list_snd (ConnectionManager.disconnect reg cid)
  · intro p hp
    exact ⟨mem_broadcast_user_list hp, not_mem_dictKeys_disconnect reg cid⟩

/-- C4: the registry keeps at most one entry per client ID (key-uniqueness is
preserved by both `connect`'s registration and `disconnect`), and registering
an already-registered ID replaces the prior entry last-writer-wins: after
`connect(A, h1)` then `connect(A, h2)`, looking `A` up yields `h2`, the key
list contains `A` exactly once, and starting from the empty registry the
snapshot is exactly `[A]` (length 1). -/
theorem register_last_writer_wins (reg : Registry) (A : String)
    (h1 h2 : Nat) (hnd : (dictKeys reg).Nodup) :
    (dictKeys (ConnectionManager.connect reg A h1).1).Nodup ∧
    (dictKeys (ConnectionManager.disconnect reg A)).Nodup ∧
    dictLookup A
      (ConnectionManager.connect (ConnectionManager.connect reg A h1).1
        A h2).1 = some h2 ∧
    (dictKeys (ConnectionManager.connect (ConnectionManager.connect reg A h1).1
        A h2).1).count A = 1 ∧
    dictKeys (ConnectionManager.connect
        (ConnectionManager.connect ([] : Registry) A h1).1 A h2).1 = [A] := by
  refine ⟨dictKeys_nodup_dictInsert hnd, dictKeys_nodup_disconnect A hnd,
    dictLookup_dictInsert_self A h2 _, ?_, ?_⟩
  · have hnd2 : (dictKeys (dictInsert A h2 (dictInsert A h1 reg))).Nodup :=
      dictKeys_nodup_dictInsert (dictKeys_nodup_dictInsert hnd)
    have hmem : A ∈ dictKeys (dictInsert A h2 (dictInsert A h1 reg)) := by
      by_cases hc :
          dictContains A (dictInsert A h2 (dictInsert A h1 reg)) = true
      · exact dictContains_iff_mem_dictKeys.mp hc
      · simp only [Bool.not_eq_true] at hc
        have hl := dictLookup_dictInsert_self A h2 (dictInsert A h1 reg)
        rw [dictLookup_eq_none_iff.mpr hc] at hl
        cases hl
    exact List.count_eq_one_of_mem hnd2 hmem
  · simp [ConnectionManager.connect, dictInsert, dictContains, dictKeys]

/-- C4 (witness): a concrete duplicate registration on registry `[C ↦ 9]`. -/
theorem register_last_writer_wins_witness :
    (dictKeys ([("C", 9)] : Registry)).Nodup ∧
    dictLookup "A"
      (ConnectionManager.connect
        (ConnectionManager.connect [("C", 9)] "A" 1).1 "A" 2).1 = some 2 :=
  ⟨by decide,
   (register_last_writer_wins [("C", 9)] "A" 1 2 (by decide)).2.2.1⟩

/-- C5: when the inbound message carries a truthy string `target` B that is
registered with handle `ws`, the routing path delivers exactly one message,
to `ws` only, and that message is the inbound message with its `from` field
set to the sender's ID (overwriting any caller-supplied `from`, as the second
conjunct shows). -/
theorem route_registered_target_delivers_once (reg : Registry)
    (A B : String) (ws : Nat) (message : JObject)
    (htarget : dictLookup "target" message = some (JValue.str B))
    (hne : B ≠ "")
    (hreg : dictLookup B reg = some ws) :
    handle_message reg A message =
      [(ws, OutMsg.app (dictInsert "from" (JValue.str A) message))] ∧
    dictLookup "from" (dictInsert "from" (JValue.str A) message) =
      some (JValue.str A) := by
  constructor
  · have htr : truthy (JValue.str B) = true := by
      simp [truthy, bne_iff_ne, hne]
    simp [handle_message, htarget, htr,
      ConnectionManager.send_personal_message, hreg]
  · exact dictLookup_dictInsert_self "from" (JValue.str A) message

/-- C5 (witness): routing from sender A a message whose target is B and
whose payload is x, with B registered at handle 7, delivers once to
handle 7. -/
theorem route_registered_witness :
    dictLookup "B" ([("B", 7)] : Registry) = some 7 ∧
    handle_message [("B", 7)] "A"
        [("target", JValue.str "B"), ("payload", JValue.str "x")] =
      [(7, OutMsg.app (dictInsert "from" (JValue.str "A")
        [("target", JValue.str "B"), ("payload", JValue.str "x")]))] :=
  ⟨by decide,
   (route_registered_target_delivers_once [("B", 7)] "A" "B" 7
     [("target", JValue.str "B"), ("payload", JValue.str "x")]
     (by decide) (by decide) (by decide)).1⟩

/-- C6: when the inbound message carries a truthy string `target` Z that is
NOT registered, routing delivers nothing to any connection (in particular
nothing back to the sender) and the session loop continues with the registry
unchanged. -/
theorem route_unregistered_target_drops (reg : Registry) (A Z : String)
    (message : JObject)
    (htarget : dictLookup "target" message = some (JValue.str Z))
    (hne : Z ≠ "")
    (habs : dictLookup Z reg = none) :
    handle_message reg A message = [] ∧
    sessionStep reg A (some message) = StepResult.continued reg [] := by
  have h1 : handle_message reg A message = [] := by
    have htr : truthy (JValue.str Z) = true := by
      simp [truthy, bne_iff_ne, hne]
    simp [handle_message, htarget, htr,
      ConnectionManager.send_personal_message, habs]
  exact ⟨h1, by simp [sessionStep, h1]⟩

/-- C6 (witness): routing to unregistered "Z" on registry `[B ↦ 7]`. -/
theorem route_unregistered_witness :
    dictLookup "Z" ([("B", 7)] : Registry) = none ∧
    handle_message [("B", 7)] "A" [("target", JValue.str "Z")] = [] :=
  ⟨by decide,
   (route_unregistered_target_drops [("B", 7)] "A" "Z"
     [("target", JValue.str "Z")] (by decide) (by decide) (by decide)).1⟩

/-- C7: `disconnect` (the spec's `unregister`) is idempotent: after it runs
the ID resolves to nothing; when the ID is absent it is a no-op that leaves
the registry unchanged; and a second consecutive call for the same ID is a
no-op. -/
theorem unregister_idempotent (reg : Registry) (id : String) :
    dictLookup id (ConnectionManager.disconnect reg id) = none ∧
    (dictLookup id reg = none → ConnectionManager.disconnect reg id = reg) ∧
    ConnectionManager.disconnect (ConnectionManager.disconnect reg id) id =
      ConnectionManager.disconnect reg id := by
  refine ⟨dictLookup_disconnect_self reg id, ?_, ?_⟩
  · intro h
    have hc := dictLookup_eq_none_iff.mp h
    simp [ConnectionManager.disconnect, hc]
  · have hc : dictContains id (ConnectionManager.disconnect reg id) = false :=
      dictLookup_eq_none_iff.mp (dictLookup_disconnect_self reg id)
    show (if dictContains id (ConnectionManager.disconnect reg id) then
        dictRemove id (ConnectionManager.disconnect reg id)
      else ConnectionManager.disconnect reg id) =
        ConnectionManager.disconnect reg id
    simp [hc]

/-- C7 (witness): removing absent "B" from `[A ↦ 0]` is a no-op. -/
theorem unregister_idempotent_witness :
    dictLookup "B" ([("A", 0)] : Registry) = none ∧
    ConnectionManager.disconnect [("A", 0)] "B" = [("A", 0)] :=
  ⟨by decide, (unregister_idempotent [("A", 0)] "B").2.1 (by decide)⟩

/-- C8: an inbound message with no `target` field is dropped: routing
delivers nothing to any connection, and the session loop continues with the
registry unchanged (only the warning is printed). -/
theorem route_missing_target_drops (reg : Registry) (A : String)
    (message : JObject)
    (htarget : dictLookup "target" message = none) :
    handle_message reg A message = [] ∧
    sessionStep reg A (some message) = StepResult.continued reg [] := by
  have h1 : handle_message reg A message = [] := by
    simp [handle_message, htarget, truthy]
  exact ⟨h1, by simp [sessionStep, h1]⟩

/-- C8 (witness): a message with only a payload field is dropped. -/
theorem route_missing_target_witness :
    dictLookup "target" ([("payload", JValue.str "x")] : JObject) = none ∧
    handle_message [("B", 7)] "A" [("payload", JValue.str "x")] = [] :=
  ⟨by decide,
   (route_missing_target_drops [("B", 7)] "A" [("payload", JValue.str "x")]
     (by decide)).1⟩

/-- C10 (frame properties): `disconnect id` leaves every other key's binding
unchanged, and handling a decoded application message (the routing path,
including `send_personal_message`) leaves the registry itself unchanged —
only `connect` and `disconnect` mutate membership. -/
theorem registry_frame_properties (reg : Registry) (id k cid : String)
    (message : JObject) (hne : k ≠ id) :
    dictLookup k (ConnectionManager.disconnect reg id) = dictLookup k reg ∧
    (sessionStep reg cid (some message)).reg = reg ∧
    dictKeys (sessionStep reg cid (some message)).reg = dictKeys reg :=
  ⟨dictLookup_disconnect_other hne reg, rfl, rfl⟩

/-- C10 (witness): disconnecting "A" from `[A ↦ 0, B ↦ 1]` leaves B's
binding intact, and routing a message mutates nothing. -/
theorem registry_frame_witness :
    dictLookup "B" (ConnectionManager.disconnect [("A", 0), ("B", 1)] "A") =
      dictLookup "B" ([("A", 0), ("B", 1)] : Registry) ∧
    (sessionStep [("A", 0), ("B", 1)] "X"
      (some [("target", JValue.str "B")])).reg = [("A", 0), ("B", 1)] :=
  ⟨(registry_frame_properties [("A", 0), ("B", 1)] "A" "B" "X"
      [("target", JValue.str "B")] (by decide)).1,
   (registry_frame_properties [("A", 0), ("B", 1)] "A" "B" "X"
      [("target", JValue.str "B")] (by decide)).2.1⟩
